import Mathlib

/-
Verification development for the substack-post-scrapper repository.

The Python source under src/substack_scraper is shallowly embedded below:
pure fragments become Lean functions, stateful fragments become explicit
state passing, Python dicts become association lists over an inductive
value type, clock reads become explicit integer parameters, and fallible
operations return Option.  Each embedded definition is annotated with the
source location it was translated from.
-/

namespace Substack

/-- A Python value, restricted to the shapes the embedded code manipulates.
`vDict` is not needed by any claim, so dict-valued fields are represented
opaquely through `vStr`-tagged payloads where they occur. -/
inductive Val where
  | vStr : String → Val
  | vInt : Int → Val
  | vBool : Bool → Val
  | vDate : Int → Val
  | vNone : Val
deriving DecidableEq, Repr

/-- A Python dict with string keys, modelled as an association list in
insertion order (Python dicts preserve insertion order). -/
abbrev Dict := List (String × Val)

/-- Python truthiness for the values above (`if not url:` style checks). -/
def falsy : Val → Bool
  | Val.vStr s => s = ""
  | Val.vInt n => n = 0
  | Val.vBool b => !b
  | Val.vDate _ => false
  | Val.vNone => true

/-- Membership test `k in d` on a Python dict. -/
def containsKey : Dict → String → Bool
  | [], _ => false
  | (k', _) :: d, k => if k' = k then true else containsKey d k

/-- Lookup `d.get(k)` on a Python dict: `none` models Python `None`-for-missing. -/
def getKey : Dict → String → Option Val
  | [], _ => none
  | (k', v) :: d, k => if k' = k then some v else getKey d k

/-- Replace the value stored under an existing key, keeping insertion order. -/
def replaceKey : Dict → String → Val → Dict
  | [], _, _ => []
  | (k', v') :: d, k, v =>
      if k' = k then (k, v) :: replaceKey d k v else (k', v') :: replaceKey d k v

/-- Python dict assignment `d[k] = v`: update in place if the key exists
(keeping its position), otherwise append the new pair. -/
def setKey (d : Dict) (k : String) (v : Val) : Dict :=
  if containsKey d k then replaceKey d k v else d ++ [(k, v)]

/-- Python `d.update(e)`: assign every pair of `e` into `d`, in `e`'s order. -/
def dictUpdate (d e : Dict) : Dict :=
  e.foldl (fun acc p => setKey acc p.1 p.2) d

theorem getKey_replaceKey_same (d : Dict) (k : String) (v : Val)
    (h : containsKey d k = true) : getKey (replaceKey d k v) k = some v := by
  induction d with
  | nil => simp [containsKey] at h
  | cons p d ih =>
      obtain ⟨k', v'⟩ := p
      by_cases hk : k' = k
      · simp [replaceKey, getKey, hk]
      · simp [containsKey, hk] at h
        simp [replaceKey, getKey, hk, ih h]

theorem getKey_replaceKey_other (d : Dict) (k q : String) (v : Val)
    (h : q ≠ k) : getKey (replaceKey d k v) q = getKey d q := by
  induction d with
  | nil => simp [replaceKey]
  | cons p d ih =>
      obtain ⟨k', v'⟩ := p
      by_cases hk : k' = k
      · subst hk
        simp [replaceKey, getKey, Ne.symm h, ih]
      · by_cases hq : k' = q
        · subst hq
          simp [replaceKey, getKey, hk, h]
        · simp [replaceKey, getKey, hk, hq, ih]

theorem getKey_append_right (d e : Dict) (k : String)
    (h : containsKey d k = false) : getKey (d ++ e) k = getKey e k := by
  induction d with
  | nil => simp
  | cons p d ih =>
      obtain ⟨k', v'⟩ := p
      by_cases hk : k' = k
      · simp [containsKey, hk] at h
      · simp [containsKey, hk] at h
        simp [getKey, hk, ih h]

theorem getKey_setKey_same (d : Dict) (k : String) (v : Val) :
    getKey (setKey d k v) k = some v := by
  unfold setKey
  by_cases h : containsKey d k = true
  · simp [h, getKey_replaceKey_same d k v h]
  · have h' : containsKey d k = false := by
      cases hc : containsKey d k
      · rfl
      · exact absurd hc h
    simp [h', getKey_append_right d [(k, v)] k h', getKey]

theorem getKey_append_single_other (d : Dict) (k q : String) (v : Val)
    (h : q ≠ k) : getKey (d ++ [(k, v)]) q = getKey d q := by
  induction d with
  | nil => simp [getKey, Ne.symm h]
  | cons p d ih =>
      obtain ⟨k', v'⟩ := p
      by_cases hq : k' = q
      · simp [getKey, hq]
      · simp [getKey, hq, ih]

theorem getKey_setKey_other (d : Dict) (k q : String) (v : Val)
    (h : q ≠ k) : getKey (setKey d k v) q = getKey d q := by
  unfold setKey
  by_cases hc : containsKey d k
  · simp [hc, getKey_replaceKey_other d k q v h]
  · simp [hc, getKey_append_single_other d k q v h]

theorem containsKey_replaceKey (d : Dict) (k q : String) (v : Val) :
    containsKey (replaceKey d k v) q =
      (containsKey d q || (containsKey d k && decide (k = q))) := by
  induction d with
  | nil => simp [replaceKey, containsKey]
  | cons p d ih =>
      obtain ⟨k', v'⟩ := p
      by_cases hk : k' = k
      · subst hk
        by_cases hq : k' = q
        · simp [replaceKey, containsKey, hq]
        · simp [replaceKey, containsKey, hq, ih]
      · by_cases hq : k' = q
        · subst hq
          simp [replaceKey, containsKey, hk]
        · simp [replaceKey, containsKey, hk, hq, ih]

theorem containsKey_append (d e : Dict) (k : String) :
    containsKey (d ++ e) k = (containsKey d k || containsKey e k) := by
  induction d with
  | nil => simp [containsKey]
  | cons p d ih =>
      obtain ⟨k', v'⟩ := p
      by_cases hk : k' = k
      · simp [containsKey, hk]
      · simp [containsKey, hk, ih]

theorem containsKey_setKey (d : Dict) (k q : String) (v : Val) :
    containsKey (setKey d k v) q = (containsKey d q || decide (k = q)) := by
  unfold setKey
  by_cases hc : containsKey d k
  · simp [hc, containsKey_replaceKey]
  · by_cases hq : k = q
    · subst hq
      simp [hc, containsKey_append, containsKey]
    · simp [hc, containsKey_append, containsKey, hq]

theorem getKey_dictUpdate_frame (e : Dict) (k : String)
    (h : containsKey e k = false) :
    ∀ d : Dict, getKey (dictUpdate d e) k = getKey d k := by
  induction e with
  | nil => intro d; simp [dictUpdate]
  | cons p e ih =>
      intro d
      obtain ⟨k', v'⟩ := p
      by_cases hk : k' = k
      · simp [containsKey, hk] at h
      · simp [containsKey, hk] at h
        have step : dictUpdate d ((k', v') :: e) = dictUpdate (setKey d k' v') e := by
          simp [dictUpdate]
        rw [step, ih h, getKey_setKey_other d k' k v' (fun hq => hk hq.symm)]

theorem containsKey_dictUpdate_mono (e : Dict) (k : String) :
    ∀ d : Dict, containsKey d k = true → containsKey (dictUpdate d e) k = true := by
  induction e with
  | nil => intro d h; simpa [dictUpdate] using h
  | cons p e ih =>
      intro d h
      obtain ⟨k', v'⟩ := p
      have step : dictUpdate d ((k', v') :: e) = dictUpdate (setKey d k' v') e := by
        simp [dictUpdate]
      rw [step]
      exact ih _ (by simp [containsKey_setKey, h])

theorem dictUpdate_nil (d : Dict) : dictUpdate d [] = d := rfl

/-!  RateLimiter — src/substack_scraper/utils/rate_limiter.py

Time is modelled in integer seconds.  `acquire` is translated from
`RateLimiter.acquire` (lines 31-64): the `asyncio.Lock` serialises calls
(it is held across the sleep), so the method is a sequential state
transformer.  The model takes the clock reading `now` that
`datetime.utcnow()` returns at entry; a sleep advances the clock to the
wake-up time, which is also the appended timestamp.  `log` is a ghost
field recording every appended request timestamp. -/

structure RLState where
  maxRequests : Nat
  window : Int
  requests : List Int
  log : List Int
deriving DecidableEq, Repr

/-- One `acquire()` call entered at clock reading `now`.  Mirrors the body:
evict while the front timestamp is `< now - window`; if the queue still
holds `>= maxRequests` entries, compute the wait; only when the wait is
strictly positive does it sleep and pop the oldest entry; finally append
the current clock reading.  (`headD 0` is unreachable for
`maxRequests >= 1`, matching Python which would raise on an empty deque.) -/
def RLState.acquire (s : RLState) (now : Int) : RLState × Int :=
  let reqs := s.requests.dropWhile (fun t => decide (t < now - s.window))
  if s.maxRequests ≤ reqs.length then
    let oldest := reqs.headD 0
    let waitUntil := oldest + s.window
    if now < waitUntil then
      ({ s with requests := reqs.tail ++ [waitUntil], log := s.log ++ [waitUntil] },
       waitUntil)
    else
      ({ s with requests := reqs ++ [now], log := s.log ++ [now] }, now)
  else
    ({ s with requests := reqs ++ [now], log := s.log ++ [now] }, now)

/-- Run a sequence of `acquire()` calls whose entry clock readings are
`clocks`, in order. -/
def RLState.runAcquires (s : RLState) (clocks : List Int) : RLState :=
  clocks.foldl (fun st t => (st.acquire t).1) s

/-- Fresh limiter with capacity `c` and window `w` (constructor, lines 15-29). -/
def RLState.init (c : Nat) (w : Int) : RLState :=
  { maxRequests := c, window := w, requests := [], log := [] }

/-- Number of recorded request timestamps inside the half-open time window
`(t, t + w]` of duration `w`. -/
def countInWindow (log : List Int) (t w : Int) : Nat :=
  (log.filter (fun x => decide (t < x) && decide (x ≤ t + w))).length

/-- C1: the claim says no duration-`window` time window ever contains more
than `maxRequests` recorded timestamps.  The code violates this: with
capacity 2 and window 10, five `acquire()` calls whose clock reads are
0, 0, 10, 10, 10 hit the `wait_seconds == 0` path, where the code neither
sleeps nor evicts the oldest entry yet still appends, so the window
`(0, 10]` ends up holding 3 recorded timestamps and the queue holds 5
in-window entries. -/
theorem rate_limiter_window_overflow :
    countInWindow ((RLState.init 2 10).runAcquires [0, 0, 10, 10, 10]).log 0 10 = 3 ∧
    ((RLState.init 2 10).runAcquires [0, 0, 10, 10, 10]).requests = [0, 0, 10, 10, 10] ∧
    2 < 3 := by
  decide

/-!  ScrollHandler — src/substack_scraper/scraper/scroll_handler.py

`scroll_to_load_results` (lines 32-110) is a while-loop driving the page;
its observable inputs are the page-height reads (one per loop iteration,
indexed by `i`) and the result-count probe reads (indexed by call number
`n`: one at the top of each iteration, one after each scroll, and one
final read after the loop).  The loop itself carries `last_height`,
`last_count` and `no_change_iterations`; `fuel` bounds the number of
iterations the model will unfold, with `none` meaning the fuel ran out
before the loop exited. -/

def scrollAux (maxNC target : Nat) (heights counts : Nat → Nat) :
    Nat → Nat → Nat → Nat → Nat → Nat → Option Nat
  | 0, _, _, _, _, _ => none
  | fuel + 1, n, i, lastH, lastC, noChange =>
    let cur := counts n
    if target ≤ cur then some (counts (n + 1))
    else
      let newH := heights i
      let newC := counts (n + 1)
      if newH = lastH ∧ newC = lastC then
        if maxNC ≤ noChange + 1 then some (counts (n + 2))
        else scrollAux maxNC target heights counts fuel (n + 2) (i + 1) newH newC (noChange + 1)
      else scrollAux maxNC target heights counts fuel (n + 2) (i + 1) newH newC 0

/-- Entry point: `last_height = 0`, `last_count = 0`, `no_change_iterations = 0`. -/
def scroll_to_load_results (maxNC target fuel : Nat) (heights counts : Nat → Nat) :
    Option Nat :=
  scrollAux maxNC target heights counts fuel 0 0 0 0 0

theorem scrollAux_const_succ (maxNC target c h fuel n i lastH lastC noChange : Nat) :
    scrollAux maxNC target (fun _ => h) (fun _ => c) (fuel + 1) n i lastH lastC noChange =
      if target ≤ c then some c
      else if h = lastH ∧ c = lastC then
        if maxNC ≤ noChange + 1 then some c
        else scrollAux maxNC target (fun _ => h) (fun _ => c)
          fuel (n + 2) (i + 1) h c (noChange + 1)
      else scrollAux maxNC target (fun _ => h) (fun _ => c) fuel (n + 2) (i + 1) h c 0 :=
  rfl

theorem scrollAux_const (maxNC target c h : Nat) (hlt : c < target) :
    ∀ d fuel n i nc, maxNC ≤ nc + d → d < fuel →
      scrollAux maxNC target (fun _ => h) (fun _ => c) fuel n i h c nc = some c := by
  intro d
  induction d with
  | zero =>
      intro fuel n i nc hnc hfuel
      match fuel, hfuel with
      | f + 1, _ =>
        rw [scrollAux_const_succ, if_neg (by omega), if_pos ⟨rfl, rfl⟩, if_pos (by omega)]
  | succ d ih =>
      intro fuel n i nc hnc hfuel
      match fuel, hfuel with
      | f + 1, hf =>
        rw [scrollAux_const_succ, if_neg (by omega), if_pos ⟨rfl, rfl⟩]
        by_cases hstop : maxNC ≤ nc + 1
        · rw [if_pos hstop]
        · rw [if_neg hstop]
          exact ih f (n + 2) (i + 1) (nc + 1) (by omega) (by omega)

/-- C2: with a count probe that returns the constant `c` forever and a page
height that is the constant `h`, `scroll_to_load_results` terminates within
`maxNC + 2` loop iterations (at most one progress iteration followed by at
most `maxNC + 1` consecutive no-progress iterations) and returns the final
observed count `c`, for every `target` — including targets above `c`. -/
theorem scroll_terminates_on_constant_probe (maxNC target c h : Nat) :
    scroll_to_load_results maxNC target (maxNC + 2) (fun _ => h) (fun _ => c) = some c := by
  show scrollAux maxNC target (fun _ => h) (fun _ => c) (maxNC + 1 + 1) 0 0 0 0 0 = some c
  rw [scrollAux_const_succ]
  by_cases htc : target ≤ c
  · rw [if_pos htc]
  · rw [if_neg htc]
    by_cases hzero : h = 0 ∧ c = 0
    · rw [if_pos hzero]
      by_cases hstop : maxNC ≤ 0 + 1
      · rw [if_pos hstop]
      · rw [if_neg hstop]
        exact scrollAux_const maxNC target c h (by omega) (maxNC - 1) (maxNC + 1)
          _ _ _ (by omega) (by omega)
    · rw [if_neg hzero]
      exact scrollAux_const maxNC target c h (by omega) maxNC (maxNC + 1)
        _ _ _ (by omega) (by omega)

/-!  DataExtractor — src/substack_scraper/scraper/data_extractor.py

`extract_posts` (lines 21-55) runs four strategies; each one catches its
own exceptions and returns the empty list on any failure, so a strategy is
modelled by its resulting record list.  The second component of the result
records which strategies the if-chain evaluated, in order. -/

/-- The per-record stamping loop (`post["keyword"] = keyword;
post["scrapedAt"] = scraped_at`, data_extractor.py lines 49-52 and
search_scraper.py lines 169-171): two unconditional dict assignments. -/
def stampOne (kw : String) (ts : Val) (d : Dict) : Dict :=
  setKey (setKey d "keyword" (Val.vStr kw)) "scrapedAt" ts

/-- Stamp every extracted record with the keyword and capture timestamp. -/
def stampRecords (kw : String) (ts : Val) (rs : List Dict) : List Dict :=
  rs.map (stampOne kw ts)

/-- `DataExtractor.extract_posts`: strategy 1 (React state), then 2
(`__NEXT_DATA__`), then 3 (`window._preloads`), then 4 (DOM heuristics);
the first non-empty result wins, then every record is stamped. -/
def extract_posts (s1 s2 s3 s4 : List Dict) (kw : String) (ts : Val) :
    List Dict × List Nat :=
  if s1 ≠ [] then (stampRecords kw ts s1, [1])
  else if s2 ≠ [] then (stampRecords kw ts s2, [1, 2])
  else if s3 ≠ [] then (stampRecords kw ts s3, [1, 2, 3])
  else (stampRecords kw ts s4, [1, 2, 3, 4])

/-- C3: the fallback chain stops at the first strategy with a non-empty
record list — if strategy 1 returns records, only strategy 1 is evaluated
and its records (stamped) are the result; if every strategy returns empty
(or failed, which the code degrades to empty), the result is the empty
sequence, produced without raising (the model is a total function). -/
theorem extract_posts_fallback_chain (s1 s2 s3 s4 : List Dict) (kw : String) (ts : Val) :
    (s1 ≠ [] → extract_posts s1 s2 s3 s4 kw ts = (stampRecords kw ts s1, [1])) ∧
    (s1 = [] → s2 = [] → s3 = [] → s4 = [] →
      extract_posts s1 s2 s3 s4 kw ts = ([], [1, 2, 3, 4])) := by
  constructor
  · intro h
    simp [extract_posts, h]
  · intro h1 h2 h3 h4
    subst h1
    subst h2
    subst h3
    subst h4
    simp [extract_posts, stampRecords]

/-- Closed instance of `extract_posts_fallback_chain`: one concrete record
from strategy 1 short-circuits the chain. -/
theorem extract_posts_fallback_chain_witness :
    ([[("id", Val.vInt 1)]] ≠ ([] : List Dict)) ∧
    extract_posts [[("id", Val.vInt 1)]] [] [] [] "ai" (Val.vStr "t") =
      (stampRecords "ai" (Val.vStr "t") [[("id", Val.vInt 1)]], [1]) :=
  ⟨by decide,
   (extract_posts_fallback_chain [[("id", Val.vInt 1)]] [] [] [] "ai" (Val.vStr "t")).1
     (by decide)⟩

/-- C6 counterexample: a record that already carries `keyword = "old"` does
NOT keep that value through the Materialize stamping — the assignment is
unconditional and overwrites it with the search keyword. -/
theorem stamp_overwrites_existing_keyword :
    getKey (stampOne "ai" (Val.vStr "t1")
        [("keyword", Val.vStr "old"), ("scrapedAt", Val.vStr "t0")]) "keyword" ≠
      some (Val.vStr "old") := by
  decide

/-- C6 amended: the stamping in the Materialize step is unconditional — on
every record it overwrites `keyword` with the search keyword and
`scrapedAt` with the capture timestamp, whether or not those fields were
already present. -/
theorem stamp_sets_keyword_and_timestamp (d : Dict) (kw : String) (ts : Val) :
    getKey (stampOne kw ts d) "keyword" = some (Val.vStr kw) ∧
    getKey (stampOne kw ts d) "scrapedAt" = some ts := by
  constructor
  · unfold stampOne
    rw [getKey_setKey_other _ _ _ _ (by decide), getKey_setKey_same]
  · unfold stampOne
    rw [getKey_setKey_same]

/-!  PostFetcher — src/substack_scraper/scraper/post_fetcher.py

`fetch_post_content` (lines 28-56) catches every exception and returns the
empty dict, so the outcome of one fetch task, as observed by
`enrich_posts`, is either a content dict (`ok`, possibly empty) or an
exception escaping the task (`exn`, surfaced through
`asyncio.gather(..., return_exceptions=True)`).  A task that raises does
so before the `post.update(content)` line (the only statements after it
cannot raise), so on `exn` the record is unmodified. -/

inductive FetchOutcome where
  | ok : Dict → FetchOutcome
  | exn : FetchOutcome
deriving DecidableEq, Repr

/-- One slot of `enrich_posts.fetch_one` (lines 156-167) combined with the
`gather` post-processing (lines 174-180): a record whose `canonical_url` is
missing or falsy is passed through; a raised task keeps the original
record; otherwise the fetched content is merged in with `post.update`. -/
def enrichOne (post : Dict) (f : FetchOutcome) : Dict :=
  if falsy ((getKey post "canonical_url").getD Val.vNone) then post
  else
    match f with
    | FetchOutcome.exn => post
    | FetchOutcome.ok content => dictUpdate post content

/-- The slots resolved in input order, slot `i` using fetch outcome `fetch i`. -/
def enrichFrom (fetch : Nat → FetchOutcome) : Nat → List Dict → List Dict
  | _, [] => []
  | i, p :: ps => enrichOne p (fetch i) :: enrichFrom fetch (i + 1) ps

/-- `PostFetcher.enrich_posts` (lines 132-183): passthrough when
`fetch_content` is false, otherwise per-slot enrichment. -/
def enrich_posts (posts : List Dict) (fetch_content : Bool)
    (fetch : Nat → FetchOutcome) : List Dict :=
  if fetch_content then enrichFrom fetch 0 posts else posts

theorem enrichFrom_get? (fetch : Nat → FetchOutcome) :
    ∀ (ps : List Dict) (n i : Nat),
      (enrichFrom fetch n ps).get? i = (ps.get? i).map (fun p => enrichOne p (fetch (n + i))) := by
  intro ps
  induction ps with
  | nil => intro n i; simp [enrichFrom]
  | cons p ps ih =>
      intro n i
      cases i with
      | zero => simp [enrichFrom]
      | succ j =>
          simp only [enrichFrom, List.get?]
          rw [ih (n + 1) j]
          have : n + 1 + j = n + (j + 1) := by omega
          rw [this]

theorem enrichFrom_length (fetch : Nat → FetchOutcome) :
    ∀ (ps : List Dict) (n : Nat), (enrichFrom fetch n ps).length = ps.length := by
  intro ps
  induction ps with
  | nil => intro n; rfl
  | cons p ps ih => intro n; simp [enrichFrom, ih]

/-- C4: `enrich_posts` returns a list of the same length in the same slot
order, each slot depending only on its own input record and its own fetch
outcome; a slot whose fetch raises, or whose fetch yields nothing (the
empty content dict), is exactly the pre-enrichment input record; and when
`fetch_content` is false the input list is returned unchanged. -/
theorem enrich_posts_slotwise (posts : List Dict) (fetch : Nat → FetchOutcome) :
    enrich_posts posts false fetch = posts ∧
    (enrich_posts posts true fetch).length = posts.length ∧
    (∀ i, (enrich_posts posts true fetch).get? i =
      (posts.get? i).map (fun p => enrichOne p (fetch i))) ∧
    (∀ i p, posts.get? i = some p → fetch i = FetchOutcome.exn →
      (enrich_posts posts true fetch).get? i = some p) ∧
    (∀ i p, posts.get? i = some p → fetch i = FetchOutcome.ok [] →
      (enrich_posts posts true fetch).get? i = some p) := by
  refine ⟨rfl, enrichFrom_length fetch posts 0, ?_, ?_, ?_⟩
  · intro i
    have h := enrichFrom_get? fetch posts 0 i
    simpa using h
  · intro i p hp hf
    have h := enrichFrom_get? fetch posts 0 i
    simp only [Nat.zero_add] at h
    show (enrichFrom fetch 0 posts).get? i = some p
    rw [h, hp]
    simp only [Option.map_some']
    rw [hf]
    unfold enrichOne
    split
    · rfl
    · rfl
  · intro i p hp hf
    have h := enrichFrom_get? fetch posts 0 i
    simp only [Nat.zero_add] at h
    show (enrichFrom fetch 0 posts).get? i = some p
    rw [h, hp]
    simp only [Option.map_some']
    rw [hf]
    unfold enrichOne
    split
    · rfl
    · rfl

/-- Closed instance of `enrich_posts_slotwise`: two records, the fetch for
slot 0 raises, the fetch for slot 1 succeeds; slot 0 keeps its input. -/
theorem enrich_posts_slotwise_witness :
    ([[("canonical_url", Val.vStr "https://a.example/p/x")],
      [("canonical_url", Val.vStr "https://a.example/p/y")]].get? 0 =
        some [("canonical_url", Val.vStr "https://a.example/p/x")]) ∧
    ((fun i => if i = 0 then FetchOutcome.exn else FetchOutcome.ok [("wordcount", Val.vInt 7)]) 0 =
        FetchOutcome.exn) ∧
    (enrich_posts
        [[("canonical_url", Val.vStr "https://a.example/p/x")],
         [("canonical_url", Val.vStr "https://a.example/p/y")]]
        true
        (fun i => if i = 0 then FetchOutcome.exn else FetchOutcome.ok [("wordcount", Val.vInt 7)])).get? 0 =
      some [("canonical_url", Val.vStr "https://a.example/p/x")] :=
  ⟨rfl, rfl,
   ((enrich_posts_slotwise
      [[("canonical_url", Val.vStr "https://a.example/p/x")],
       [("canonical_url", Val.vStr "https://a.example/p/y")]]
      (fun i => if i = 0 then FetchOutcome.exn else FetchOutcome.ok [("wordcount", Val.vInt 7)])).2.2.2.1
     0 [("canonical_url", Val.vStr "https://a.example/p/x")] rfl rfl)⟩

/-- Secondary allow-list probed by `_extract_content` (line 91). -/
def secondaryKeys : List String := ["reactions", "comment_count", "restacks", "audio_items"]

/-- First half of `PostFetcher._extract_content` (lines 69-96): when the
`__NEXT_DATA__` post object is present and truthy (a non-empty dict), its
`body_html`, `body_json` and `wordcount` are copied unconditionally
(possibly as `None`), then the secondary allow-list keys are copied only
when present and truthy.  `nextPost = none` models both an absent script
tag and any exception inside that `try` block. -/
def nextDataContent (nextPost : Option Dict) : Dict :=
  match nextPost with
  | none => []
  | some post =>
      if post.isEmpty then []
      else
        let a := setKey [] "body_html" ((getKey post "body_html").getD Val.vNone)
        let b := setKey a "body_json" ((getKey post "body_json").getD Val.vNone)
        let c := setKey b "wordcount" ((getKey post "wordcount").getD Val.vNone)
        secondaryKeys.foldl (fun acc k =>
          match getKey post k with
          | some v => if falsy v then acc else setKey acc k v
          | none => acc) c

/-- `PostFetcher._extract_content` (lines 58-130): the `__NEXT_DATA__`
content, and if its `body_html` is falsy, a DOM fallback that stores the
innerHTML of the first matching body container when one was found and is
non-empty (`domBody` models that query result). -/
def extractContent (nextPost : Option Dict) (domBody : Option String) : Dict :=
  let c1 := nextDataContent nextPost
  if falsy ((getKey c1 "body_html").getD Val.vNone) then
    match domBody with
    | some s => if s = "" then c1 else setKey c1 "body_html" (Val.vStr s)
    | none => c1
  else c1

/-- Every key `extractContent` can produce. -/
def contentKeys : List String := "body_html" :: "body_json" :: "wordcount" :: secondaryKeys

theorem containsKey_foldl_setKey_sub (post : Dict) (q : String) :
    ∀ (ks : List String) (acc : Dict), (∀ k, k ∈ ks → k ≠ q) →
      containsKey acc q = false →
      containsKey (ks.foldl (fun acc k =>
        match getKey post k with
        | some v => if falsy v then acc else setKey acc k v
        | none => acc) acc) q = false := by
  intro ks
  induction ks with
  | nil => intro acc _ hacc; simpa using hacc
  | cons k ks ih =>
      intro acc hks hacc
      simp only [List.foldl_cons]
      apply ih
      · intro k' hk'
        exact hks k' (List.mem_cons_of_mem k hk')
      · cases hv : getKey post k with
        | none => simpa using hacc
        | some v =>
            by_cases hf : falsy v
            · simpa [hf] using hacc
            · simp only [hf]
              rw [if_neg (by simp [hf])]
              rw [containsKey_setKey]
              simp [hacc, hks k (List.mem_cons_self k ks)]

theorem containsKey_nextDataContent (nextPost : Option Dict)
    (q : String) (hq : q ∉ contentKeys) :
    containsKey (nextDataContent nextPost) q = false := by
  have hbh : q ≠ "body_html" := by
    intro h; exact hq (by rw [h]; simp [contentKeys])
  unfold nextDataContent
  cases nextPost with
  | none => rfl
  | some post =>
      by_cases hemp : post.isEmpty
      · simp [hemp, containsKey]
      · simp only [hemp, if_false, Bool.false_eq_true]
        apply containsKey_foldl_setKey_sub
        · intro k hk h
          subst h
          exact hq (by simp [contentKeys, hk])
        · rw [containsKey_setKey, containsKey_setKey, containsKey_setKey]
          have h1 : q ≠ "body_json" := by
            intro h; exact hq (by rw [h]; simp [contentKeys])
          have h2 : q ≠ "wordcount" := by
            intro h; exact hq (by rw [h]; simp [contentKeys])
          simp [containsKey, hbh.symm, h1.symm, h2.symm]

theorem containsKey_extractContent (nextPost : Option Dict) (domBody : Option String)
    (q : String) (hq : q ∉ contentKeys) :
    containsKey (extractContent nextPost domBody) q = false := by
  have hbh : q ≠ "body_html" := by
    intro h; exact hq (by rw [h]; simp [contentKeys])
  have hc1 := containsKey_nextDataContent nextPost q hq
  unfold extractContent
  dsimp only
  by_cases hfb : falsy ((getKey (nextDataContent nextPost) "body_html").getD Val.vNone) = true
  · rw [if_pos hfb]
    cases domBody with
    | none => exact hc1
    | some s =>
        dsimp only
        by_cases hs : s = ""
        · rw [if_pos hs]
          exact hc1
        · rw [if_neg hs, containsKey_setKey]
          simp [hc1, hbh.symm]
  · rw [if_neg hfb]
    exact hc1

/-- C10: enrichment merges the fetched content into the record with a dict
merge, so (a) a key absent from the content dict keeps its input value,
(b) no key is ever removed, (c) the content dict produced by
`_extract_content` can only carry `body_html`, `body_json`, `wordcount`
and the secondary allow-list, hence the stamped `keyword` and `scrapedAt`
always keep their input values, and (d) a failed fetch — the empty content
dict — leaves the record exactly equal to its input. -/
theorem enrich_frame_properties (p : Dict) :
    (∀ c k, containsKey c k = false → getKey (dictUpdate p c) k = getKey p k) ∧
    (∀ c k, containsKey p k = true → containsKey (dictUpdate p c) k = true) ∧
    (∀ nextPost domBody,
      getKey (dictUpdate p (extractContent nextPost domBody)) "keyword" = getKey p "keyword" ∧
      getKey (dictUpdate p (extractContent nextPost domBody)) "scrapedAt" = getKey p "scrapedAt") ∧
    dictUpdate p [] = p ∧
    enrichOne p (FetchOutcome.ok []) = p := by
  refine ⟨?_, ?_, ?_, dictUpdate_nil p, ?_⟩
  · intro c k hk
    exact getKey_dictUpdate_frame c k hk p
  · intro c k hk
    exact containsKey_dictUpdate_mono c k p hk
  · intro nextPost domBody
    constructor
    · exact getKey_dictUpdate_frame _ _
        (containsKey_extractContent nextPost domBody "keyword" (by decide)) p
    · exact getKey_dictUpdate_frame _ _
        (containsKey_extractContent nextPost domBody "scrapedAt" (by decide)) p
  · unfold enrichOne
    by_cases hf : falsy ((getKey p "canonical_url").getD Val.vNone) = true
    · rw [if_pos hf]
    · rw [if_neg hf]
      exact dictUpdate_nil p

/-- Closed instance of `enrich_frame_properties`: merging a concrete fetched
content dict into a stamped record preserves `keyword`. -/
theorem enrich_frame_properties_witness :
    containsKey [("body_html", Val.vStr "<p>x</p>")] "keyword" = false ∧
    getKey (dictUpdate
        [("keyword", Val.vStr "ai"), ("canonical_url", Val.vStr "https://a.example/p/x")]
        [("body_html", Val.vStr "<p>x</p>")]) "keyword" =
      getKey [("keyword", Val.vStr "ai"), ("canonical_url", Val.vStr "https://a.example/p/x")]
        "keyword" :=
  ⟨rfl,
   (enrich_frame_properties
      [("keyword", Val.vStr "ai"), ("canonical_url", Val.vStr "https://a.example/p/x")]).1
     [("body_html", Val.vStr "<p>x</p>")] "keyword" rfl⟩

/-!  SubstackPost — src/substack_scraper/models/post.py (lines 108-210)

The pydantic model has a large optional tail; the embedding keeps the
required core and the two defaulted classification fields the claims are
about.  Required, no default: `keyword`, `id`, `publication_id`, `title`,
`slug`, `canonical_url`, `post_date`; defaulted: `type = "newsletter"`,
`audience = "everyone"`.  `extra="allow"` keys and pydantic's lax
numeric-string coercion are not needed by any claim and are not modelled;
the claims only exercise well-typed or absent fields. -/

structure SubstackPost where
  keyword : String
  id : Int
  publication_id : Int
  title : String
  slug : String
  canonical_url : String
  post_date : Val
  type : String
  audience : String
deriving DecidableEq, Repr

def expectStr : Option Val → Option String
  | some (Val.vStr s) => some s
  | _ => none

def expectInt : Option Val → Option Int
  | some (Val.vInt n) => some n
  | _ => none

/-- `post_date : datetime | str` accepts a string or a datetime value. -/
def expectDate : Option Val → Option Val
  | some (Val.vStr s) => some (Val.vStr s)
  | some (Val.vDate t) => some (Val.vDate t)
  | _ => none

/-- A `str` field with a default: absent means the default, a present
non-string value fails validation. -/
def strFieldD (dflt : String) : Option Val → Option String
  | none => some dflt
  | some (Val.vStr s) => some s
  | some _ => none

/-- Pydantic validation of a raw record against `SubstackPost`
(`SubstackPost(**raw_post)`, search_scraper.py line 188): every required
field must be present with the right shape; `type` and `audience` default. -/
def validatePost (d : Dict) : Option SubstackPost := do
  let kw ← expectStr (getKey d "keyword")
  let i ← expectInt (getKey d "id")
  let pid ← expectInt (getKey d "publication_id")
  let title ← expectStr (getKey d "title")
  let slug ← expectStr (getKey d "slug")
  let url ← expectStr (getKey d "canonical_url")
  let pd ← expectDate (getKey d "post_date")
  let ty ← strFieldD "newsletter" (getKey d "type")
  let aud ← strFieldD "everyone" (getKey d "audience")
  pure { keyword := kw, id := i, publication_id := pid, title := title,
         slug := slug, canonical_url := url, post_date := pd,
         type := ty, audience := aud }

/-- The claim's minimal raw record: exactly the six fields it lists. -/
def minimalSixFieldRecord : Dict :=
  [("id", Val.vInt 1), ("publicationId", Val.vInt 2), ("title", Val.vStr "T"),
   ("slug", Val.vStr "t"), ("canonicalUrl", Val.vStr "https://x.example/p/t"),
   ("postDate", Val.vStr "2024-01-01T00:00:00Z")]

/-- C7 counterexample: a record holding exactly id, publicationId, title,
slug, canonicalUrl, postDate does NOT validate — `keyword` is a required
field of `SubstackPost` with no default (post.py line 114), and the model
declares the snake_case names `publication_id`, `canonical_url`,
`post_date` with no aliases; even the snake_case spelling of the six-field
record still fails for the missing `keyword`. -/
theorem post_minimal_record_fails_validation :
    validatePost minimalSixFieldRecord = none ∧
    validatePost
      [("id", Val.vInt 1), ("publication_id", Val.vInt 2), ("title", Val.vStr "T"),
       ("slug", Val.vStr "t"), ("canonical_url", Val.vStr "https://x.example/p/t"),
       ("post_date", Val.vStr "2024-01-01T00:00:00Z")] = none := by
  constructor
  · rfl
  · rfl

/-- C7 amended: a raw record holding exactly `keyword` plus the six
snake_case fields id, publication_id, title, slug, canonical_url,
post_date validates successfully, and the resulting post carries the
defaults `type = "newsletter"` and `audience = "everyone"`. -/
theorem post_minimal_record_with_keyword_succeeds
    (kw t s u pd : String) (i pid : Int) :
    validatePost
      [("keyword", Val.vStr kw), ("id", Val.vInt i), ("publication_id", Val.vInt pid),
       ("title", Val.vStr t), ("slug", Val.vStr s), ("canonical_url", Val.vStr u),
       ("post_date", Val.vStr pd)] =
    some { keyword := kw, id := i, publication_id := pid, title := t, slug := s,
           canonical_url := u, post_date := Val.vStr pd,
           type := "newsletter", audience := "everyone" } :=
  rfl

/-!  SearchScraper — src/substack_scraper/scraper/search_scraper.py

`search` (lines 67-220) is modelled as the pure data pipeline it applies
to its inputs once the page interactions are abstracted: `captured` is the
network-listener buffer after the Settle/Grow steps (response-arrival
order), `extracted` the DataExtractor chain result used only when nothing
was captured, `fetch` the per-slot enrichment outcomes, `ts` the stamping
timestamp, and `startT`/`endT` the two wall-clock reads. -/

structure SearchResult where
  keyword : String
  total_results : Nat
  posts : List SubstackPost
  scraped_at : Int
  duration_seconds : Int
deriving DecidableEq, Repr

/-- `SearchScraper._create_minimal_post` (lines 222-242): rebuild from the
raw record with defaults for every missing value (still validated by the
model, so a present ill-typed value fails and the record is dropped). -/
def createMinimalPost (d : Dict) (kw : String) : Option SubstackPost := do
  let i ← expectInt (some ((getKey d "id").getD (Val.vInt 0)))
  let pid ← expectInt (some ((getKey d "publication_id").getD (Val.vInt 0)))
  let title ← expectStr (some ((getKey d "title").getD (Val.vStr "Unknown")))
  let slug ← expectStr (some ((getKey d "slug").getD (Val.vStr "")))
  let url ← expectStr (some ((getKey d "canonical_url").getD (Val.vStr "")))
  let pd ← expectDate (some ((getKey d "post_date").getD (Val.vDate 0)))
  let ty ← expectStr (some ((getKey d "type").getD (Val.vStr "newsletter")))
  let aud ← expectStr (some ((getKey d "audience").getD (Val.vStr "everyone")))
  pure { keyword := kw, id := i, publication_id := pid, title := title,
         slug := slug, canonical_url := url, post_date := pd,
         type := ty, audience := aud }

/-- Typed-conversion step for one record (lines 186-201): strict parse,
then minimal reconstruction, then silent drop. -/
def convertPost (kw : String) (d : Dict) : Option SubstackPost :=
  match validatePost d with
  | some p => some p
  | none => createMinimalPost d kw

/-- `SearchScraper.search`: materialize (captured records, else extraction
chain), stamp, truncate to `lim`, enrich when requested and non-empty,
convert, assemble. -/
def search_model (kw : String) (lim : Nat) (should_fetch : Bool)
    (captured extracted : List Dict) (fetch : Nat → FetchOutcome)
    (ts : Val) (startT endT : Int) : SearchResult :=
  let raw0 := if captured.isEmpty then extracted else captured
  let raw1 := stampRecords kw ts raw0
  let raw2 := raw1.take lim
  let raw3 := if should_fetch && !raw2.isEmpty then enrich_posts raw2 true fetch else raw2
  let posts := raw3.filterMap (convertPost kw)
  { keyword := kw, total_results := posts.length, posts := posts,
    scraped_at := endT, duration_seconds := endT - startT }

/-- C5: every `SearchResult` built by `search` satisfies
`total_results = posts.length`, `posts.length ≤ lim` (the raw sequence is
sliced to `lim` before enrichment and typed conversion, and conversion can
only drop records), and a non-negative duration (wall clock read at the
end is at or after the start read). -/
theorem search_result_invariants (kw : String) (lim : Nat) (should_fetch : Bool)
    (captured extracted : List Dict) (fetch : Nat → FetchOutcome)
    (ts : Val) (startT endT : Int) (hT : startT ≤ endT) :
    (search_model kw lim should_fetch captured extracted fetch ts startT endT).total_results =
      (search_model kw lim should_fetch captured extracted fetch ts startT endT).posts.length ∧
    (search_model kw lim should_fetch captured extracted fetch ts startT endT).posts.length ≤ lim ∧
    0 ≤ (search_model kw lim should_fetch captured extracted fetch ts startT endT).duration_seconds := by
  refine ⟨rfl, ?_, ?_⟩
  · have key : ∀ (sf : Bool) (l2 : List Dict), l2.length ≤ lim →
        (List.filterMap (convertPost kw)
          (if sf && !l2.isEmpty then enrich_posts l2 true fetch else l2)).length ≤ lim := by
      intro sf l2 h2
      refine le_trans (List.length_filterMap_le _ _) ?_
      split
      · rw [show enrich_posts l2 true fetch = enrichFrom fetch 0 l2 from rfl,
          enrichFrom_length]
        exact h2
      · exact h2
    exact key should_fetch
      ((stampRecords kw ts (if captured.isEmpty then extracted else captured)).take lim)
      (List.length_take_le lim _)
  · show 0 ≤ endT - startT
    omega

/-- Closed instance of `search_result_invariants` at a concrete search. -/
theorem search_result_invariants_witness :
    (0 : Int) ≤ 5 ∧
    ((search_model "ai" 2 true []
        [[("id", Val.vInt 1)], [("id", Val.vInt 2)], [("id", Val.vInt 3)]]
        (fun _ => FetchOutcome.ok []) (Val.vStr "t") 0 5).total_results =
      (search_model "ai" 2 true []
        [[("id", Val.vInt 1)], [("id", Val.vInt 2)], [("id", Val.vInt 3)]]
        (fun _ => FetchOutcome.ok []) (Val.vStr "t") 0 5).posts.length ∧
     (search_model "ai" 2 true []
        [[("id", Val.vInt 1)], [("id", Val.vInt 2)], [("id", Val.vInt 3)]]
        (fun _ => FetchOutcome.ok []) (Val.vStr "t") 0 5).posts.length ≤ 2 ∧
     0 ≤ (search_model "ai" 2 true []
        [[("id", Val.vInt 1)], [("id", Val.vInt 2)], [("id", Val.vInt 3)]]
        (fun _ => FetchOutcome.ok []) (Val.vStr "t") 0 5).duration_seconds) :=
  ⟨by decide,
   search_result_invariants "ai" 2 true []
     [[("id", Val.vInt 1)], [("id", Val.vInt 2)], [("id", Val.vInt 3)]]
     (fun _ => FetchOutcome.ok []) (Val.vStr "t") 0 5 (by decide)⟩

/-- The empty result substituted for a keyword whose search raised
(`search_multiple`, lines 273-281). -/
def emptySearchResult (kw : String) (now : Int) : SearchResult :=
  { keyword := kw, total_results := 0, posts := [], scraped_at := now,
    duration_seconds := 0 }

/-- The sequential per-keyword loop of `search_multiple` (lines 244-283);
`runSearch i kw = none` models the whole `search` call for slot `i`
raising. -/
def searchMultipleFrom (runSearch : Nat → String → Option SearchResult) (now : Int) :
    Nat → List String → List SearchResult
  | _, [] => []
  | i, kw :: kws =>
      (match runSearch i kw with
       | some r => r
       | none => emptySearchResult kw now) :: searchMultipleFrom runSearch now (i + 1) kws

/-- `SearchScraper.search_multiple`. -/
def search_multiple (kws : List String) (runSearch : Nat → String → Option SearchResult)
    (now : Int) : List SearchResult :=
  searchMultipleFrom runSearch now 0 kws

theorem searchMultipleFrom_get? (runSearch : Nat → String → Option SearchResult)
    (now : Int) : ∀ (kws : List String) (n i : Nat),
    (searchMultipleFrom runSearch now n kws).get? i =
      (kws.get? i).map (fun kw =>
        match runSearch (n + i) kw with
        | some r => r
        | none => emptySearchResult kw now) := by
  intro kws
  induction kws with
  | nil => intro n i; simp [searchMultipleFrom]
  | cons kw kws ih =>
      intro n i
      cases i with
      | zero => simp [searchMultipleFrom]
      | succ j =>
          simp only [searchMultipleFrom, List.get?]
          rw [ih (n + 1) j]
          have : n + 1 + j = n + (j + 1) := by omega
          rw [this]

theorem searchMultipleFrom_length (runSearch : Nat → String → Option SearchResult)
    (now : Int) : ∀ (kws : List String) (n : Nat),
    (searchMultipleFrom runSearch now n kws).length = kws.length := by
  intro kws
  induction kws with
  | nil => intro n; rfl
  | cons kw kws ih => intro n; simp [searchMultipleFrom, ih]

/-- C8: `search_multiple` returns exactly one `SearchResult` per input
keyword in input order, each slot determined by its own keyword's search
outcome, and a keyword whose entire search raises yields the empty
`SearchResult` for that keyword in its slot instead of aborting the rest. -/
theorem search_multiple_slotwise (kws : List String)
    (runSearch : Nat → String → Option SearchResult) (now : Int) :
    (search_multiple kws runSearch now).length = kws.length ∧
    (∀ i, (search_multiple kws runSearch now).get? i =
      (kws.get? i).map (fun kw =>
        match runSearch i kw with
        | some r => r
        | none => emptySearchResult kw now)) ∧
    (∀ i kw, kws.get? i = some kw → runSearch i kw = none →
      (search_multiple kws runSearch now).get? i = some (emptySearchResult kw now)) := by
  refine ⟨searchMultipleFrom_length runSearch now kws 0, ?_, ?_⟩
  · intro i
    have h := searchMultipleFrom_get? runSearch now kws 0 i
    simpa using h
  · intro i kw hkw hfail
    have h := searchMultipleFrom_get? runSearch now kws 0 i
    simp only [Nat.zero_add] at h
    show (searchMultipleFrom runSearch now 0 kws).get? i = some (emptySearchResult kw now)
    rw [h, hkw]
    simp only [Option.map_some']
    rw [hfail]

/-- Closed instance of `search_multiple_slotwise`: the search for the first
of two keywords raises and is replaced by the empty result in slot 0. -/
theorem search_multiple_slotwise_witness :
    (["a", "b"].get? 0 = some "a") ∧
    ((fun i (_ : String) => if i = 0 then none else some (emptySearchResult "b" 9)) 0 "a" =
      none) ∧
    (search_multiple ["a", "b"]
        (fun i (_ : String) => if i = 0 then none else some (emptySearchResult "b" 9))
        9).get? 0 = some (emptySearchResult "a" 9) :=
  ⟨rfl, rfl,
   (search_multiple_slotwise ["a", "b"]
      (fun i (_ : String) => if i = 0 then none else some (emptySearchResult "b" 9))
      9).2.2 0 "a" rfl rfl⟩

/-!  BrowserManager — src/substack_scraper/scraper/browser.py

`start` (lines 33-49) and `stop` (lines 51-62) run under `self._lock`, so
sequentially; the state is whether `_playwright` and `_browser` are set,
plus a ghost counter of actual `chromium.launch` invocations. -/

structure BrowserManager where
  playwright : Bool
  browser : Bool
  launches : Nat
deriving DecidableEq, Repr

/-- `BrowserManager.start`: return immediately when `_browser` is already
set, otherwise launch (counted) and set both handles. -/
def BrowserManager.start (s : BrowserManager) : BrowserManager :=
  if s.browser then s
  else { playwright := true, browser := true, launches := s.launches + 1 }

/-- `BrowserManager.stop`: close the browser if set, then stop the driver
if set; both guards independently tolerate the already-stopped state. -/
def BrowserManager.stop (s : BrowserManager) : BrowserManager :=
  let s1 := if s.browser then { s with browser := false } else s
  if s1.playwright then { s1 with playwright := false } else s1

/-- C9: `start` and `stop` are idempotent on the manager state —
`start;start` equals `start` and launches the browser process no second
time, `stop;stop` equals `stop`, a start on a running manager is a no-op,
and a stop on a fully stopped manager is a no-op. -/
theorem browser_lifecycle_idempotent (s : BrowserManager) :
    BrowserManager.start (BrowserManager.start s) = BrowserManager.start s ∧
    BrowserManager.stop (BrowserManager.stop s) = BrowserManager.stop s ∧
    (BrowserManager.start (BrowserManager.start s)).launches =
      (BrowserManager.start s).launches ∧
    (s.browser = true → BrowserManager.start s = s) ∧
    (s.browser = false → s.playwright = false → BrowserManager.stop s = s) := by
  refine ⟨?_, ?_, ?_, ?_, ?_⟩
  · by_cases hb : s.browser <;> simp [BrowserManager.start, hb]
  · by_cases hb : s.browser <;> by_cases hp : s.playwright <;>
      simp [BrowserManager.stop, hb, hp]
  · by_cases hb : s.browser <;> simp [BrowserManager.start, hb]
  · intro hb
    simp [BrowserManager.start, hb]
  · intro hb hp
    simp [BrowserManager.stop, hb, hp]

/-- Closed instance of `browser_lifecycle_idempotent`: a running manager is
unchanged by `start`, a stopped one by `stop`. -/
theorem browser_lifecycle_idempotent_witness :
    BrowserManager.start ⟨true, true, 1⟩ = (⟨true, true, 1⟩ : BrowserManager) ∧
    BrowserManager.stop ⟨false, false, 0⟩ = (⟨false, false, 0⟩ : BrowserManager) :=
  ⟨(browser_lifecycle_idempotent ⟨true, true, 1⟩).2.2.2.1 rfl,
   (browser_lifecycle_idempotent ⟨false, false, 0⟩).2.2.2.2 rfl rfl⟩

end Substack
